import Mathlib
/-!
Shallow embedding of `bluesky_core.py` (Bluelytics).

The embedding models the three core functions of the repository:

* `bluesky_login`   — login section, lines 35–53;
* `get_my_posts`    — paginated feed fetcher with date filtering, lines 56–174;
* `prepare_post_data_for_csv` — CSV normalizer, lines 178–244.

External library behaviour is abstracted by oracles:

* `parse : String → Option Int` stands for
  `parser.isoparse(s).astimezone(pytz.utc)`: `some t` is the resulting UTC
  instant (instants are modelled as integers, ordered as instants are),
  `none` means the expression raised.
* `fmt : String → Option (String × String)` stands for the normalizer's
  `isoparse` / defensive `localize` / `astimezone(target_timezone)` /
  `strftime` chain: `some (d, t)` is the pair of formatted date and time
  strings in the target timezone, `none` means some step raised.
* the sequence of HTTP page responses is an oracle list `List PageResponse`,
  one entry per `requests.get` issued by the `while` loop, in order; an
  exhausted oracle behaves like a transport error (the real call always
  yields either a response or an exception).

Python dictionaries coming from JSON are modelled structurally: a missing or
falsy `post` key is `none`, the truthiness of `feed_item.get("reason")` is a
`Bool`, and a `record` value is either a dictionary of the three fields the
code reads or a non-dictionary value (`RecVal.nondict`).
-/

/-- A `record` value inside a post: either a JSON dictionary holding the
three fields the code reads (each possibly absent), or a non-dictionary
value, which `isinstance(..., dict)` rejects. -/
inductive RecVal where
  | dict (type? createdAt? text? : Option String)
  | nondict
deriving DecidableEq

/-- A Bluesky post object (`feed_item["post"]`), with the fields
`bluesky_core.py` reads: `record`, `likeCount`, `replyCount`, `uri`. -/
structure BskyPost where
  uri : String
  record? : Option RecVal
  likeCount? : Option Int
  replyCount? : Option Int
deriving DecidableEq

/-- One entry of `feed_data["feed"]`: an optional `post` (a missing or
falsy value is `none`) and the truthiness of the `reason` marker. -/
structure FeedItem where
  post? : Option BskyPost
  reason : Bool
deriving DecidableEq

/-- One decoded page body: the `feed` list and the optional `cursor`. -/
structure FeedData where
  feed : List FeedItem
  cursor? : Option String
deriving DecidableEq

/-- Outcome of one `requests.get` of the fetch loop: a decoded page, or any
exception raised inside the `try` block before the item loop
(`RequestException`, `json.JSONDecodeError`, or the generic handler). -/
inductive PageResponse where
  | transportError
  | ok (data : FeedData)
deriving DecidableEq

/-- Result of a Python expression that may raise an uncaught exception. -/
inductive PyResult (α : Type) where
  | ok (val : α)
  | raised
deriving DecidableEq

/-- The `$type` discriminator value checked at line 124. -/
def postTypeTag : String := "app.bsky.feed.post"

/-- Python truthiness of the cursor (`if not cursor: ...`): present and
non-empty. -/
def cursorTruthy : Option String → Bool
  | none => false
  | some s => decide (s ≠ "")

/-- Python truthiness of a `record` value (`feed_item["post"].get("record")`
as a condition). For a dictionary this is non-emptiness; for a
non-dictionary we return `true` — the choice is irrelevant because the
`isinstance(..., dict)` conjunct already rejects it. -/
def recValTruthy : RecVal → Bool
  | .dict t c x => t.isSome || c.isSome || x.isSome
  | .nondict => true

/-- The `isinstance(feed_item["post"]["record"], dict)` check of line 123. -/
def recValIsDict : RecVal → Bool
  | .dict _ _ _ => true
  | .nondict => false

/-- The `$type` field of a record value (`.get('$type')`); `none` for a
non-dictionary, where the code never reads it. -/
def recType? : RecVal → Option String
  | .dict t _ _ => t
  | .nondict => none

/-- The compound guard of lines 122–124:
`post.get("record") and isinstance(post["record"], dict) and
post["record"].get('$type') == 'app.bsky.feed.post'`. -/
def isRealPost (p : BskyPost) : Bool :=
  match p.record? with
  | none => false
  | some r => recValTruthy r && recValIsDict r && decide (recType? r = some postTypeTag)

/-- Line 127: `post.get('record', {}).get('createdAt', '')`. Inside the
fetcher this runs only under `isRealPost`, where the record is a
dictionary. -/
def createdAtOf (p : BskyPost) : String :=
  match p.record? with
  | some (.dict _ c _) => c.getD ""
  | _ => ""

/-- The `from_date and post_datetime_utc < from_date` test of line 134
(a `datetime` is always truthy, so truthiness is presence). -/
def belowFrom : Option Int → Int → Bool
  | some f, t => decide (t < f)
  | none, _ => false

/-- The `to_date and post_datetime_utc > to_date` test of line 142. -/
def aboveTo : Option Int → Int → Bool
  | some d, t => decide (d < t)
  | none, _ => false

/-- Configuration of one fetch: the parse oracle and the filter arguments
of `get_my_posts` (`jwt`, `user_handle` and `include_replies` only shape
the HTTP request, which the response oracle abstracts). -/
structure FetchCfg where
  parse : String → Option Int
  limit : Nat
  exclude_reposts : Bool
  from_date : Option Int
  to_date : Option Int

/-- How the body of the `for feed_item in feed_data["feed"]` loop
(lines 115–155) treats one item, before the append/limit bookkeeping:
skip it (`continue`, or the guard of lines 122–124 failing, or the
timestamp `except` of line 153), accept its post, or break out on a post
older than `from_date` (line 140). -/
inductive StepRes where
  | skip
  | accept (p : BskyPost)
  | stopFrom
deriving DecidableEq

/-- Classification of one feed item by the loop body of lines 115–155. -/
def itemStep (cfg : FetchCfg) (item : FeedItem) : StepRes :=
  match item.post? with
  | none => .skip
  | some post =>
    if cfg.exclude_reposts && item.reason then .skip
    else if isRealPost post then
      match cfg.parse (createdAtOf post) with
      | none => .skip
      | some t =>
        if belowFrom cfg.from_date t then .stopFrom
        else if aboveTo cfg.to_date t then .skip
        else .accept post
    else .skip

/-- How the item loop of one page ended: scanned every item (`done`),
broke at a post older than `from_date` (`brokeFrom`, line 140), or broke
on reaching the limit (`brokeLimit`, line 151). -/
inductive ScanOutcome where
  | done
  | brokeFrom
  | brokeLimit
deriving DecidableEq

/-- State left by the item loop: the accumulated `filtered_posts`, the
`current_batch_has_relevant_posts` flag, and how the loop ended. -/
structure ScanResult where
  acc : List BskyPost
  flag : Bool
  outcome : ScanOutcome
deriving DecidableEq

/-- The `for feed_item in feed_data["feed"]` loop of lines 115–155, from a
given `filtered_posts` accumulator and flag value. -/
def scanItems (cfg : FetchCfg) : List FeedItem → List BskyPost → Bool → ScanResult
  | [], acc, flag => ⟨acc, flag, .done⟩
  | item :: rest, acc, flag =>
    match itemStep cfg item with
    | .skip => scanItems cfg rest acc flag
    | .stopFrom => ⟨acc, false, .brokeFrom⟩
    | .accept post =>
      let acc1 := acc ++ [post]
      if cfg.limit ≤ acc1.length then ⟨acc1, true, .brokeLimit⟩
      else scanItems cfg rest acc1 true

/-- The `while True` pagination loop of lines 83–171, consuming one oracle
response per iteration. `transportError` models the three `except`
branches (lines 163–171): break, returning the accumulator. An empty
`feed` breaks at line 111. After scanning a page the loop breaks when
`len(filtered_posts) >= limit or not cursor or
(from_date and not current_batch_has_relevant_posts and
len(filtered_posts) > 0)` (line 160). -/
def fetchPages (cfg : FetchCfg) : List PageResponse → List BskyPost → List BskyPost
  | [], acc => acc
  | resp :: rest, acc =>
    match resp with
    | .transportError => acc
    | .ok data =>
      if data.feed.isEmpty then acc
      else
        let r := scanItems cfg data.feed acc false
        if cfg.limit ≤ r.acc.length
            || !cursorTruthy data.cursor?
            || (cfg.from_date.isSome && !r.flag && decide (0 < r.acc.length))
        then r.acc
        else fetchPages cfg rest r.acc

/-- `get_my_posts` (lines 56–174): run the pagination loop from an empty
`filtered_posts`, against the given sequence of page responses. -/
def get_my_posts (parse : String → Option Int) (limit : Nat)
    (exclude_reposts : Bool) (from_date to_date : Option Int)
    (responses : List PageResponse) : List BskyPost :=
  fetchPages ⟨parse, limit, exclude_reposts, from_date, to_date⟩ responses []

/-- The session endpoint's answer as `bluesky_login` observes it:
whether `raise_for_status` passes (2xx), and the body's optional
`accessJwt` field. A transport or JSON-decode failure is
`PyResult.raised` at the call site. -/
structure SessionResponse where
  statusOk : Bool
  accessJwt? : Option String
deriving DecidableEq

/-- `bluesky_login` (lines 35–53): any `RequestException` — from the POST,
from `raise_for_status` on a non-2xx status, or from `.json()` — is caught
and yields `none`; otherwise the result is `session_data.get("accessJwt")`,
which is `none` when the field is absent. -/
def bluesky_login (resp : PyResult SessionResponse) : Option String :=
  match resp with
  | .raised => none
  | .ok r => if r.statusOk then r.accessJwt? else none

/-- Line 202: `post.get('record', {}).get('text', '')`. A missing record
defaults to an empty dictionary, so the field lookup yields `''`; a
non-dictionary record has no `.get`, raising `AttributeError`, which
nothing in `prepare_post_data_for_csv` catches. -/
def recordText (p : BskyPost) : PyResult String :=
  match p.record? with
  | none => .ok ""
  | some (.dict _ _ x) => .ok (x.getD "")
  | some .nondict => .raised

/-- Line 203: `post.get('record', {}).get('createdAt', '')`, with the same
exception behaviour as `recordText`. -/
def recordCreatedAt (p : BskyPost) : PyResult String :=
  match p.record? with
  | none => .ok ""
  | some (.dict _ c _) => .ok (c.getD "")
  | some .nondict => .raised

/-- One CSV row as built at lines 235–241: keys
`Post`, `Date`, `Time`, `#likes`, `#comments`. -/
structure CsvRow where
  post : String
  date : String
  time : String
  likes : Int
  comments : Int
deriving DecidableEq

/-- The loop body of lines 201–241 for one post: read `text` and
`createdAt`, try to format the timestamp in the target timezone — on
failure both formatted fields stay `''` (lines 205–230) — and build the
row with `likeCount` and `replyCount` defaulting to `0`. -/
def normalizeOne (fmt : String → Option (String × String)) (p : BskyPost) :
    PyResult CsvRow :=
  match recordText p with
  | .raised => .raised
  | .ok text =>
    match recordCreatedAt p with
    | .raised => .raised
    | .ok createdAt =>
      let dt := (fmt createdAt).getD ("", "")
      .ok ⟨text, dt.1, dt.2, p.likeCount?.getD 0, p.replyCount?.getD 0⟩

/-- `prepare_post_data_for_csv` (lines 178–244): the empty input returns
`[]` at line 192; otherwise one row is appended per post in order, and an
uncaught exception in the loop aborts the whole call. -/
def prepare_post_data_for_csv (fmt : String → Option (String × String)) :
    List BskyPost → PyResult (List CsvRow)
  | [] => .ok []
  | p :: rest =>
    match normalizeOne fmt p with
    | .raised => .raised
    | .ok row =>
      match prepare_post_data_for_csv fmt rest with
      | .raised => .raised
      | .ok rows => .ok (row :: rows)

/-- A post's timestamp parses and lies (inclusively) within both optional
bounds of the configuration. -/
def withinBounds (cfg : FetchCfg) (p : BskyPost) : Prop :=
  ∃ t, cfg.parse (createdAtOf p) = some t ∧
    (∀ f, cfg.from_date = some f → f ≤ t) ∧
    (∀ d, cfg.to_date = some d → t ≤ d)

/-- The post of a feed item that survives the repost filter (lines 117–120):
`none` when the item has no post or is excluded as a repost. -/
def eligOf (cfg : FetchCfg) (item : FeedItem) : Option BskyPost :=
  match item.post? with
  | none => none
  | some p => if cfg.exclude_reposts && item.reason then none else some p

/-- The posts of one page that survive the repost filter, in page order. -/
def pageEligible (cfg : FetchCfg) (items : List FeedItem) : List BskyPost :=
  items.filterMap (eligOf cfg)

/-- All posts arriving across the pages of the response sequence that
survive the repost filter, in feed order. -/
def eligiblePosts (cfg : FetchCfg) (resps : List PageResponse) : List BskyPost :=
  (resps.map fun r =>
    match r with
    | .transportError => []
    | .ok d => pageEligible cfg d.feed).flatten

/-- A post whose `record` value, if present, is a dictionary — the shape
every RawPost produced by the fetcher has (line 202's `.get` chain raises
on a non-dictionary record, which no caller in the repository produces). -/
def structurallySound (p : BskyPost) : Bool :=
  match p.record? with
  | some .nondict => false
  | _ => true

/-- A concrete parse oracle for closed instances: timestamps named `tN`
parse to instant `N`; anything else fails to parse. -/
def mockParse (s : String) : Option Int :=
  if s = "t0" then some 0
  else if s = "t1" then some 1
  else if s = "t3" then some 3
  else if s = "t5" then some 5
  else if s = "t7" then some 7
  else if s = "t20" then some 20
  else none

/-- A concrete format oracle for closed instances: only `t3` formats. -/
def mockFmt (s : String) : Option (String × String) :=
  if s = "t3" then some ("2024-01-03", "12:00:00") else none

/-- A well-formed original post whose `createdAt` is `ca`. -/
def mkPost (ca : String) : BskyPost :=
  ⟨"at://did:plc:u/app.bsky.feed.post/" ++ ca,
   some (.dict (some postTypeTag) (some ca) (some "hello")), some 2, some 1⟩

/-- A feed item wrapping `mkPost ca`, not marked as a repost. -/
def mkItem (ca : String) : FeedItem :=
  ⟨some (mkPost ca), false⟩

theorem itemStep_accept (cfg : FetchCfg) {item : FeedItem} {p : BskyPost}
    (h : itemStep cfg item = .accept p) :
    item.post? = some p ∧ (cfg.exclude_reposts && item.reason) = false ∧
    isRealPost p = true ∧
    ∃ t, cfg.parse (createdAtOf p) = some t ∧
      belowFrom cfg.from_date t = false ∧ aboveTo cfg.to_date t = false := by
  unfold itemStep at h
  split at h
  · exact absurd h (by simp)
  · rename_i post hp
    split at h
    · exact absurd h (by simp)
    · rename_i hex
      split at h
      · rename_i hreal
        split at h
        · exact absurd h (by simp)
        · rename_i t hparse
          split at h
          · exact absurd h (by simp)
          · rename_i hfrom
            split at h
            · exact absurd h (by simp)
            · rename_i hto
              cases h
              exact ⟨hp, by simpa using hex, hreal, t, hparse,
                by simpa using hfrom, by simpa using hto⟩
      · exact absurd h (by simp)

theorem itemStep_accept_of (cfg : FetchCfg) {item : FeedItem} {p : BskyPost} {t : Int}
    (hp : item.post? = some p) (hex : (cfg.exclude_reposts && item.reason) = false)
    (hreal : isRealPost p = true) (hparse : cfg.parse (createdAtOf p) = some t)
    (hfrom : belowFrom cfg.from_date t = false) (hto : aboveTo cfg.to_date t = false) :
    itemStep cfg item = .accept p := by
  unfold itemStep
  rw [hp]
  simp [hex, hreal, hparse, hfrom, hto]

theorem itemStep_stop_of (cfg : FetchCfg) {item : FeedItem} {p : BskyPost} {t : Int}
    (hp : item.post? = some p) (hex : (cfg.exclude_reposts && item.reason) = false)
    (hreal : isRealPost p = true) (hparse : cfg.parse (createdAtOf p) = some t)
    (hfrom : belowFrom cfg.from_date t = true) :
    itemStep cfg item = .stopFrom := by
  unfold itemStep
  rw [hp]
  simp [hex, hreal, hparse, hfrom]

theorem itemStep_skip_of_parse_fail (cfg : FetchCfg) {item : FeedItem} {p : BskyPost}
    (hp : item.post? = some p) (hreal : isRealPost p = true)
    (hparse : cfg.parse (createdAtOf p) = none) :
    itemStep cfg item = .skip := by
  unfold itemStep
  rw [hp]
  by_cases hex : (cfg.exclude_reposts && item.reason) = true
  · simp [hex]
  · simp [hex, hreal, hparse]

theorem itemStep_skip_of_malformed (cfg : FetchCfg) {item : FeedItem}
    (h : item.post? = none ∨ ∀ p, item.post? = some p → isRealPost p = false) :
    itemStep cfg item = .skip := by
  unfold itemStep
  rcases hp : item.post? with _ | post
  · rfl
  · rcases h with h | h
    · rw [hp] at h; exact absurd h (by simp)
    · by_cases hex : (cfg.exclude_reposts && item.reason) = true
      · simp [hex]
      · simp [hex, h post hp]

theorem scanItems_cons_skip (cfg : FetchCfg) {item : FeedItem} (rest : List FeedItem)
    (acc : List BskyPost) (flag : Bool) (h : itemStep cfg item = .skip) :
    scanItems cfg (item :: rest) acc flag = scanItems cfg rest acc flag := by
  simp [scanItems, h]

theorem scanItems_cons_stop (cfg : FetchCfg) {item : FeedItem} (rest : List FeedItem)
    (acc : List BskyPost) (flag : Bool) (h : itemStep cfg item = .stopFrom) :
    scanItems cfg (item :: rest) acc flag = ⟨acc, false, .brokeFrom⟩ := by
  simp [scanItems, h]

theorem scanItems_cons_accept (cfg : FetchCfg) {item : FeedItem} {p : BskyPost}
    (rest : List FeedItem) (acc : List BskyPost) (flag : Bool)
    (h : itemStep cfg item = .accept p) :
    scanItems cfg (item :: rest) acc flag =
      if cfg.limit ≤ (acc ++ [p]).length then ⟨acc ++ [p], true, .brokeLimit⟩
      else scanItems cfg rest (acc ++ [p]) true := by
  simp [scanItems, h]

theorem scanItems_append_done (cfg : FetchCfg) {l1 : List FeedItem} (l2 : List FeedItem)
    {acc : List BskyPost} {flag : Bool} {a : List BskyPost} {f : Bool}
    (h : scanItems cfg l1 acc flag = ⟨a, f, .done⟩) :
    scanItems cfg (l1 ++ l2) acc flag = scanItems cfg l2 a f := by
  induction l1 generalizing acc flag with
  | nil =>
    simp only [scanItems, ScanResult.mk.injEq] at h
    obtain ⟨rfl, rfl, -⟩ := h
    simp
  | cons item rest ih =>
    cases hstep : itemStep cfg item with
    | skip =>
      rw [scanItems_cons_skip cfg rest acc flag hstep] at h
      rw [List.cons_append, scanItems_cons_skip cfg _ acc flag hstep]
      exact ih h
    | stopFrom =>
      rw [scanItems_cons_stop cfg rest acc flag hstep] at h
      simp at h
    | accept p =>
      rw [scanItems_cons_accept cfg rest acc flag hstep] at h
      rw [List.cons_append, scanItems_cons_accept cfg _ acc flag hstep]
      split at h
      · simp at h
      · rename_i hlim
        rw [if_neg hlim]
        exact ih h

theorem itemStep_accept_withinBounds (cfg : FetchCfg) {item : FeedItem} {p : BskyPost}
    (h : itemStep cfg item = .accept p) : withinBounds cfg p := by
  obtain ⟨-, -, -, t, hparse, hfrom, hto⟩ := itemStep_accept cfg h
  refine ⟨t, hparse, ?_, ?_⟩
  · intro f hf
    rw [hf] at hfrom
    simpa [belowFrom] using hfrom
  · intro d hd
    rw [hd] at hto
    simpa [aboveTo] using hto

theorem scanItems_mem (cfg : FetchCfg) (items : List FeedItem) :
    ∀ (acc : List BskyPost) (flag : Bool) (p : BskyPost),
      p ∈ (scanItems cfg items acc flag).acc → p ∈ acc ∨ withinBounds cfg p := by
  induction items with
  | nil => intro acc flag p h; simp [scanItems] at h; exact Or.inl h
  | cons item rest ih =>
    intro acc flag p h
    cases hstep : itemStep cfg item with
    | skip =>
      rw [scanItems_cons_skip cfg rest acc flag hstep] at h
      exact ih acc flag p h
    | stopFrom =>
      rw [scanItems_cons_stop cfg rest acc flag hstep] at h
      exact Or.inl h
    | accept q =>
      rw [scanItems_cons_accept cfg rest acc flag hstep] at h
      have hq := itemStep_accept_withinBounds cfg hstep
      split at h
      · simp at h
        rcases h with h | h
        · exact Or.inl h
        · exact Or.inr (h ▸ hq)
      · rcases ih (acc ++ [q]) true p h with h' | h'
        · simp at h'
          rcases h' with h' | h'
          · exact Or.inl h'
          · exact Or.inr (h' ▸ hq)
        · exact Or.inr h'

theorem fetchPages_cons_ok (cfg : FetchCfg) (data : FeedData)
    (rest : List PageResponse) (acc : List BskyPost)
    (hne : data.feed.isEmpty = false) :
    fetchPages cfg (.ok data :: rest) acc =
      if cfg.limit ≤ (scanItems cfg data.feed acc false).acc.length
          || !cursorTruthy data.cursor?
          || (cfg.from_date.isSome && !(scanItems cfg data.feed acc false).flag
              && decide (0 < (scanItems cfg data.feed acc false).acc.length))
      then (scanItems cfg data.feed acc false).acc
      else fetchPages cfg rest (scanItems cfg data.feed acc false).acc := by
  rw [fetchPages, if_neg (by simp [hne])]

theorem fetchPages_mem (cfg : FetchCfg) (resps : List PageResponse) :
    ∀ (acc : List BskyPost) (p : BskyPost),
      p ∈ fetchPages cfg resps acc → p ∈ acc ∨ withinBounds cfg p := by
  induction resps with
  | nil => intro acc p h; exact Or.inl h
  | cons resp rest ih =>
    intro acc p h
    cases resp with
    | transportError => exact Or.inl h
    | ok data =>
      by_cases hne : data.feed.isEmpty
      · rw [fetchPages, if_pos (by simp [hne])] at h
        exact Or.inl h
      · rw [fetchPages_cons_ok cfg data rest acc (by simpa using hne)] at h
        split at h
        · exact scanItems_mem cfg data.feed acc false p h
        · rcases ih _ p h with h' | h'
          · exact scanItems_mem cfg data.feed acc false p h'
          · exact Or.inr h'

theorem scanItems_length (cfg : FetchCfg) (items : List FeedItem) :
    ∀ (acc : List BskyPost) (flag : Bool), acc.length < cfg.limit →
      (scanItems cfg items acc flag).acc.length ≤ cfg.limit := by
  induction items with
  | nil => intro acc flag h; simpa [scanItems] using Nat.le_of_lt h
  | cons item rest ih =>
    intro acc flag h
    cases hstep : itemStep cfg item with
    | skip => rw [scanItems_cons_skip cfg rest acc flag hstep]; exact ih acc flag h
    | stopFrom => rw [scanItems_cons_stop cfg rest acc flag hstep]; exact Nat.le_of_lt h
    | accept q =>
      rw [scanItems_cons_accept cfg rest acc flag hstep]
      have hlen : (acc ++ [q]).length ≤ cfg.limit := by
        simpa using Nat.succ_le_of_lt h
      split
      · exact hlen
      · rename_i hlt
        exact ih (acc ++ [q]) true (Nat.lt_of_not_le (fun hc => hlt hc))

theorem fetchPages_length (cfg : FetchCfg) (resps : List PageResponse) :
    ∀ (acc : List BskyPost), acc.length < cfg.limit →
      (fetchPages cfg resps acc).length ≤ cfg.limit := by
  induction resps with
  | nil => intro acc h; exact Nat.le_of_lt h
  | cons resp rest ih =>
    intro acc h
    cases resp with
    | transportError => exact Nat.le_of_lt h
    | ok data =>
      by_cases hne : data.feed.isEmpty
      · rw [fetchPages, if_pos (by simp [hne])]
        exact Nat.le_of_lt h
      · rw [fetchPages_cons_ok cfg data rest acc (by simpa using hne)]
        split
        · exact scanItems_length cfg data.feed acc false h
        · rename_i hcond
          refine ih _ ?_
          by_contra hc
          exact hcond (by simp [Nat.le_of_not_lt hc])

theorem itemStep_accept_elig (cfg : FetchCfg) {item : FeedItem} {p : BskyPost}
    (h : itemStep cfg item = .accept p) : eligOf cfg item = some p := by
  obtain ⟨hp, hex, -, -⟩ := itemStep_accept cfg h
  simp [eligOf, hp, hex]

theorem scanItems_sublist (cfg : FetchCfg) (items : List FeedItem) :
    ∀ (acc : List BskyPost) (flag : Bool),
      ∃ s, (scanItems cfg items acc flag).acc = acc ++ s ∧
        s.Sublist (pageEligible cfg items) := by
  induction items with
  | nil => intro acc flag; exact ⟨[], by simp [scanItems], List.nil_sublist _⟩
  | cons item rest ih =>
    intro acc flag
    cases hstep : itemStep cfg item with
    | skip =>
      rw [scanItems_cons_skip cfg rest acc flag hstep]
      obtain ⟨s, hs, hsub⟩ := ih acc flag
      refine ⟨s, hs, ?_⟩
      unfold pageEligible
      rw [List.filterMap_cons]
      cases eligOf cfg item with
      | none => exact hsub
      | some q => exact hsub.cons q
    | stopFrom =>
      rw [scanItems_cons_stop cfg rest acc flag hstep]
      exact ⟨[], by simp, List.nil_sublist _⟩
    | accept q =>
      have helig := itemStep_accept_elig cfg hstep
      rw [scanItems_cons_accept cfg rest acc flag hstep]
      have hpe : pageEligible cfg (item :: rest) = q :: pageEligible cfg rest := by
        unfold pageEligible
        rw [List.filterMap_cons, helig]
      split
      · exact ⟨[q], rfl, by rw [hpe]; exact (List.nil_sublist _).cons₂ q⟩
      · obtain ⟨s, hs, hsub⟩ := ih (acc ++ [q]) true
        refine ⟨q :: s, by simpa using hs, ?_⟩
        rw [hpe]
        exact hsub.cons₂ q

theorem fetchPages_sublist (cfg : FetchCfg) (resps : List PageResponse) :
    ∀ (acc : List BskyPost),
      ∃ s, fetchPages cfg resps acc = acc ++ s ∧
        s.Sublist (eligiblePosts cfg resps) := by
  induction resps with
  | nil => intro acc; exact ⟨[], by simp [fetchPages], List.nil_sublist _⟩
  | cons resp rest ih =>
    intro acc
    have hcons : ∀ d : FeedData, eligiblePosts cfg (.ok d :: rest) =
        pageEligible cfg d.feed ++ eligiblePosts cfg rest := by
      intro d
      simp [eligiblePosts]
    cases resp with
    | transportError => exact ⟨[], by simp [fetchPages], List.nil_sublist _⟩
    | ok data =>
      by_cases hne : data.feed.isEmpty
      · rw [fetchPages, if_pos (by simp [hne])]
        exact ⟨[], by simp, List.nil_sublist _⟩
      · rw [fetchPages_cons_ok cfg data rest acc (by simpa using hne)]
        obtain ⟨s1, hs1, hsub1⟩ := scanItems_sublist cfg data.feed acc false
        split
        · refine ⟨s1, hs1, ?_⟩
          rw [hcons data]
          exact hsub1.trans (List.sublist_append_left _ _)
        · obtain ⟨s2, hs2, hsub2⟩ := ih (scanItems cfg data.feed acc false).acc
          refine ⟨s1 ++ s2, by rw [hs2, hs1, List.append_assoc], ?_⟩
          rw [hcons data]
          exact hsub1.append hsub2

theorem normalizeOne_ok (fmt : String → Option (String × String))
    {p : BskyPost} (h : structurallySound p = true) :
    ∃ row, normalizeOne fmt p = .ok row := by
  obtain ⟨uri, rec?, lk, rp⟩ := p
  rcases rec? with _ | r
  · exact ⟨_, rfl⟩
  · cases r with
    | dict ty ca tx => exact ⟨_, rfl⟩
    | nondict => simp [structurallySound] at h

/-- C1 counterexample: `fromDate = 3`; the first page's only item parses to
instant 1, strictly older than `fromDate`, yet — because nothing has been
accepted so far — the fetcher requests the next page and accepts the
instant-5 post found there. The claim requires the result to contain no
post after the too-old one in feed order, i.e. to be empty here. -/
theorem claim_C1_counterexample :
    mockParse "t1" = some 1 ∧ (1 : Int) < 3 ∧
    get_my_posts mockParse 10 true (some 3) none
      [.ok ⟨[mkItem "t1"], some "c1"⟩, .ok ⟨[mkItem "t5"], none⟩]
      = [mkPost "t5"] ∧
    [mkPost "t5"] ≠ ([] : List BskyPost) := by
  refine ⟨by decide, by decide, by decide, by decide⟩

/-- C1 (amended): with `fromDate` set, once the scan hits a real post whose
instant `t` is strictly older than `fromDate`, the rest of that page is
never scanned (the page's scan ends in `brokeFrom` with the accumulator as
it stood); if at least one post has been accepted so far the fetch
terminates after this page; but if the accumulator is still empty the
fetch continues to the next page whenever a cursor is present. -/
theorem claim_C1_early_termination_amended (cfg : FetchCfg)
    (pre suffix : List FeedItem) (old : FeedItem) (rest : List PageResponse)
    (cur : Option String) (acc a : List BskyPost) (fl : Bool) (p : BskyPost)
    (f t : Int)
    (hfd : cfg.from_date = some f)
    (hpre : scanItems cfg pre acc false = ⟨a, fl, .done⟩)
    (hp : old.post? = some p) (hex : (cfg.exclude_reposts && old.reason) = false)
    (hreal : isRealPost p = true) (hparse : cfg.parse (createdAtOf p) = some t)
    (ht : t < f) :
    scanItems cfg (pre ++ old :: suffix) acc false = ⟨a, false, .brokeFrom⟩ ∧
    (0 < a.length →
      fetchPages cfg (.ok ⟨pre ++ old :: suffix, cur⟩ :: rest) acc = a) ∧
    (a = [] → 0 < cfg.limit → cursorTruthy cur = true →
      fetchPages cfg (.ok ⟨pre ++ old :: suffix, cur⟩ :: rest) acc =
        fetchPages cfg rest a) := by
  have hstop : itemStep cfg old = .stopFrom := by
    refine itemStep_stop_of cfg hp hex hreal hparse ?_
    rw [hfd]
    simpa [belowFrom] using ht
  have hscan : scanItems cfg (pre ++ old :: suffix) acc false
      = ⟨a, false, .brokeFrom⟩ := by
    rw [scanItems_append_done cfg (old :: suffix) hpre,
      scanItems_cons_stop cfg suffix a fl hstop]
  have hne : (pre ++ old :: suffix).isEmpty = false := by
    cases pre <;> simp
  refine ⟨hscan, ?_, ?_⟩
  · intro hpos
    rw [fetchPages_cons_ok cfg ⟨pre ++ old :: suffix, cur⟩ rest acc hne]
    rw [if_pos ?side, hscan]
    case side =>
      rw [hscan]
      simp [hfd, hpos]
  · intro hnil hlim hcur
    rw [fetchPages_cons_ok cfg ⟨pre ++ old :: suffix, cur⟩ rest acc hne]
    rw [if_neg ?side2, hscan]
    case side2 =>
      rw [hscan]
      simp [hcur, hnil]
      omega

/-- C1 witness: `fromDate = 3`; the first page holds a post at instant 5
(accepted) followed by one at instant 1 (older than `fromDate`): scanning
stops at the old post, the item at instant 7 behind it is never accepted,
and — one post having been accepted — the fetch ends after this page
without consuming the remaining response. -/
theorem claim_C1_witness :
    scanItems ⟨mockParse, 10, true, some 3, none⟩
        ([mkItem "t5"] ++ mkItem "t1" :: [mkItem "t7"]) [] false
      = ⟨[mkPost "t5"], false, .brokeFrom⟩ ∧
    (0 < [mkPost "t5"].length →
      fetchPages ⟨mockParse, 10, true, some 3, none⟩
        (.ok ⟨[mkItem "t5"] ++ mkItem "t1" :: [mkItem "t7"], some "c1"⟩
          :: [.ok ⟨[mkItem "t0"], none⟩]) [] = [mkPost "t5"]) ∧
    ([mkPost "t5"] = [] → 0 < (10 : Nat) → cursorTruthy (some "c1") = true →
      fetchPages ⟨mockParse, 10, true, some 3, none⟩
        (.ok ⟨[mkItem "t5"] ++ mkItem "t1" :: [mkItem "t7"], some "c1"⟩
          :: [.ok ⟨[mkItem "t0"], none⟩]) [] =
        fetchPages ⟨mockParse, 10, true, some 3, none⟩
          [.ok ⟨[mkItem "t0"], none⟩] [mkPost "t5"]) := by
  have h := claim_C1_early_termination_amended ⟨mockParse, 10, true, some 3, none⟩
    [mkItem "t5"] [mkItem "t7"] (mkItem "t1") [.ok ⟨[mkItem "t0"], none⟩]
    (some "c1") [] [mkPost "t5"] true (mkPost "t1") 3 1
    (by decide) (by decide) (by decide) (by decide) (by decide) (by decide)
    (by decide)
  exact h

/-- C2: the code contradicts the claim (and its own comment at line 143,
"keep fetching as older posts might be relevant"). With `fromDate = 0`,
`toDate = 10`: page one's instant-5 post is accepted; page two's only post,
at instant 20, is skipped by the `toDate` filter, leaving the page's
relevant-posts flag false, so line 160 halts the fetch even though a cursor
was returned and the limit was not reached — the matching instant-7 post
on page three is never fetched. -/
theorem claim_C2_toDate_page_halts_fetch :
    get_my_posts mockParse 10 true (some 0) (some 10)
      [.ok ⟨[mkItem "t5"], some "c1"⟩, .ok ⟨[mkItem "t20"], some "c2"⟩,
       .ok ⟨[mkItem "t7"], none⟩] = [mkPost "t5"] ∧
    mockParse "t20" = some 20 ∧ (10 : Int) < 20 ∧
    mockParse "t7" = some 7 ∧ (0 : Int) ≤ 7 ∧ (7 : Int) ≤ 10 ∧
    mkPost "t7" ∉ [mkPost "t5"] := by
  refine ⟨by decide, by decide, by decide, by decide, by decide, by decide, by decide⟩

/-- C3: both date bounds are inclusive. Part one: every post in the
fetcher's result parses to an instant `t` with `fromDate ≤ t` and
`t ≤ toDate` whenever the respective bound is set. Part two: a real,
non-repost post whose instant lies inclusively within both bounds — in
particular exactly at `fromDate` or exactly at `toDate` — is accepted,
not skipped. -/
theorem claim_C3_inclusive_bounds :
    (∀ (parse : String → Option Int) (limit : Nat) (er : Bool)
        (fd td : Option Int) (resps : List PageResponse) (p : BskyPost),
        p ∈ get_my_posts parse limit er fd td resps →
        ∃ t, parse (createdAtOf p) = some t ∧
          (∀ f, fd = some f → f ≤ t) ∧ (∀ d, td = some d → t ≤ d)) ∧
    (∀ (parse : String → Option Int) (limit : Nat) (er : Bool) (f d t : Int)
        (item : FeedItem) (p : BskyPost),
        1 ≤ limit → item.post? = some p → item.reason = false →
        isRealPost p = true → parse (createdAtOf p) = some t →
        f ≤ t → t ≤ d →
        get_my_posts parse limit er (some f) (some d) [.ok ⟨[item], none⟩] = [p]) := by
  constructor
  · intro parse limit er fd td resps p hmem
    exact (fetchPages_mem ⟨parse, limit, er, fd, td⟩ resps [] p hmem).resolve_left
      (by simp)
  · intro parse limit er f d t item p hlim hp hres hreal hparse hf ht
    set cfg : FetchCfg := ⟨parse, limit, er, some f, some d⟩ with hcfg
    have hstep : itemStep cfg item = .accept p := by
      refine itemStep_accept_of cfg hp (by simp [hres]) hreal hparse ?_ ?_
      · simp only [hcfg, belowFrom]
        simpa using not_lt.mpr hf
      · simp only [hcfg, aboveTo]
        simpa using not_lt.mpr ht
    have hacc : (scanItems cfg [item] [] false).acc = [p] := by
      rw [scanItems_cons_accept cfg [] [] false hstep]
      split <;> simp [scanItems]
    rw [get_my_posts, fetchPages_cons_ok cfg ⟨[item], none⟩ [] [] (by simp),
      if_pos (by simp [cursorTruthy])]
    exact hacc

/-- C3 witness: a single-page fetch with `fromDate = 3`, `toDate = 5` and a
post at exactly instant 3 (the `fromDate` boundary): the post is accepted,
and its instant satisfies both inclusive bounds. -/
theorem claim_C3_witness :
    mkPost "t3" ∈ get_my_posts mockParse 10 true (some 3) (some 5)
      [.ok ⟨[mkItem "t3"], none⟩] ∧
    (∃ t, mockParse (createdAtOf (mkPost "t3")) = some t ∧
      (∀ f, (some 3 : Option Int) = some f → f ≤ t) ∧
      (∀ d, (some 5 : Option Int) = some d → t ≤ d)) :=
  ⟨by decide,
   claim_C3_inclusive_bounds.1 mockParse 10 true (some 3) (some 5)
     [.ok ⟨[mkItem "t3"], none⟩] (mkPost "t3") (by decide)⟩

/-- C4: the fetcher's result is a sublist — in feed order — of the posts
arriving across the pages that survive the repost filter (so with
`excludeReposts` set, no item carrying a `reason` marker contributes), and,
for any positive limit, contains at most `limit` posts. -/
theorem claim_C4_limit_order_repost_filter (parse : String → Option Int)
    (limit : Nat) (er : Bool) (fd td : Option Int)
    (resps : List PageResponse) :
    (get_my_posts parse limit er fd td resps).Sublist
      (eligiblePosts ⟨parse, limit, er, fd, td⟩ resps) ∧
    (1 ≤ limit → (get_my_posts parse limit er fd td resps).length ≤ limit) := by
  constructor
  · obtain ⟨s, hs, hsub⟩ := fetchPages_sublist ⟨parse, limit, er, fd, td⟩ resps []
    rw [get_my_posts, hs]
    simpa using hsub
  · intro h
    exact fetchPages_length ⟨parse, limit, er, fd, td⟩ resps [] (by simpa using h)

/-- C4 witness: limit 1 over a page holding a repost-marked item and two
original posts: the result keeps only the first original post, within the
limit and a sublist of the repost-filtered feed. -/
theorem claim_C4_witness :
    (get_my_posts mockParse 1 true none none
      [.ok ⟨[⟨some (mkPost "t7"), true⟩, mkItem "t5", mkItem "t3"], some "c"⟩]).Sublist
      (eligiblePosts ⟨mockParse, 1, true, none, none⟩
        [.ok ⟨[⟨some (mkPost "t7"), true⟩, mkItem "t5", mkItem "t3"], some "c"⟩]) ∧
    (get_my_posts mockParse 1 true none none
      [.ok ⟨[⟨some (mkPost "t7"), true⟩, mkItem "t5", mkItem "t3"], some "c"⟩]).length ≤ 1 := by
  have h := claim_C4_limit_order_repost_filter mockParse 1 true none none
    [.ok ⟨[⟨some (mkPost "t7"), true⟩, mkItem "t5", mkItem "t3"], some "c"⟩]
  exact ⟨h.1, h.2 (by decide)⟩

/-- C5: a real post item whose `createdAt` fails to parse is a no-op for
the page scan — the scan of the page behaves exactly as the scan of the
remaining items from the same state, so the item is never added to the
result and neither the page nor the fetch is aborted; at the page level,
the fetch over a page carrying the item equals the fetch over that page
without it (whenever the page holds other items). -/
theorem claim_C5_unparseable_timestamp_skipped (cfg : FetchCfg)
    (item : FeedItem) (rest others : List FeedItem) (acc : List BskyPost)
    (flag : Bool) (p : BskyPost) (cur : Option String)
    (resps : List PageResponse)
    (hp : item.post? = some p) (hreal : isRealPost p = true)
    (hparse : cfg.parse (createdAtOf p) = none) :
    scanItems cfg (item :: rest) acc flag = scanItems cfg rest acc flag ∧
    (others ≠ [] →
      fetchPages cfg (.ok ⟨item :: others, cur⟩ :: resps) acc =
        fetchPages cfg (.ok ⟨others, cur⟩ :: resps) acc) := by
  have hskip : itemStep cfg item = .skip :=
    itemStep_skip_of_parse_fail cfg hp hreal hparse
  refine ⟨scanItems_cons_skip cfg rest acc flag hskip, ?_⟩
  intro hothers
  rw [fetchPages_cons_ok cfg ⟨item :: others, cur⟩ resps acc (by simp),
    fetchPages_cons_ok cfg ⟨others, cur⟩ resps acc
      (by simpa [List.isEmpty_iff] using hothers)]
  rw [show (⟨item :: others, cur⟩ : FeedData).feed = item :: others from rfl,
    scanItems_cons_skip cfg others acc false hskip]

/-- C5 witness: a page `[bad, t3]` where `bad` has an unparseable
timestamp behaves like the page `[t3]`: the good post is still fetched. -/
theorem claim_C5_witness :
    (scanItems ⟨mockParse, 10, true, none, none⟩ (mkItem "bad" :: [mkItem "t3"]) [] false
      = scanItems ⟨mockParse, 10, true, none, none⟩ [mkItem "t3"] [] false) ∧
    ([mkItem "t3"] ≠ ([] : List FeedItem) →
      fetchPages ⟨mockParse, 10, true, none, none⟩
          (.ok ⟨mkItem "bad" :: [mkItem "t3"], none⟩ :: []) [] =
        fetchPages ⟨mockParse, 10, true, none, none⟩
          (.ok ⟨[mkItem "t3"], none⟩ :: []) []) :=
  claim_C5_unparseable_timestamp_skipped ⟨mockParse, 10, true, none, none⟩
    (mkItem "bad") [mkItem "t3"] [mkItem "t3"] [] false (mkPost "bad") none []
    (by decide) (by decide) (by decide)

/-- C6: on any list of raw posts (with dictionary-shaped records, the only
shape the pipeline produces), the normalizer returns — without raising —
exactly one row per input post, in the same order: row `i` is the
normalization of post `i`. This holds for the empty list and for posts
with malformed or missing timestamps. -/
theorem claim_C6_normalizer_length_order (fmt : String → Option (String × String))
    (posts : List BskyPost) (h : ∀ p ∈ posts, structurallySound p = true) :
    ∃ rows, prepare_post_data_for_csv fmt posts = .ok rows ∧
      rows.length = posts.length ∧
      ∀ (i : Nat) (p : BskyPost) (row : CsvRow),
        posts[i]? = some p → rows[i]? = some row →
        normalizeOne fmt p = .ok row := by
  induction posts with
  | nil =>
    refine ⟨[], rfl, rfl, ?_⟩
    intro i p row hp
    simp at hp
  | cons q rest ih =>
    obtain ⟨row, hrow⟩ := normalizeOne_ok fmt (h q (by simp))
    obtain ⟨rows, hps, hlen, hidx⟩ := ih (fun p hp => h p (by simp [hp]))
    refine ⟨row :: rows, ?_, by simp [hlen], ?_⟩
    · rw [prepare_post_data_for_csv, hrow, hps]
    · intro i p r hp hr
      cases i with
      | zero =>
        simp only [List.getElem?_cons_zero, Option.some.injEq] at hp hr
        rw [← hp, ← hr]
        exact hrow
      | succ n =>
        simp only [List.getElem?_cons_succ] at hp hr
        exact hidx n p r hp hr

/-- C6 witness: a two-post batch whose first timestamp is unparseable still
yields exactly two rows, in order. -/
theorem claim_C6_witness :
    ∃ rows, prepare_post_data_for_csv mockFmt [mkPost "bad", mkPost "t3"] = .ok rows ∧
      rows.length = [mkPost "bad", mkPost "t3"].length ∧
      ∀ (i : Nat) (p : BskyPost) (row : CsvRow),
        [mkPost "bad", mkPost "t3"][i]? = some p → rows[i]? = some row →
        normalizeOne mockFmt p = .ok row :=
  claim_C6_normalizer_length_order mockFmt [mkPost "bad", mkPost "t3"] (by decide)

/-- C7: when the timestamp of a post cannot be parsed or converted
(`fmt` fails on its `createdAt`), the normalizer still emits a row: the
`Date` and `Time` fields are the empty string, while the text is the
post's text and the counts are the post's counts, defaulting to 0 when
absent. -/
theorem claim_C7_degraded_record (fmt : String → Option (String × String))
    (p : BskyPost) (text ca : String)
    (htext : recordText p = .ok text) (hca : recordCreatedAt p = .ok ca)
    (hfmt : fmt ca = none) :
    normalizeOne fmt p = .ok ⟨text, "", "", p.likeCount?.getD 0, p.replyCount?.getD 0⟩ := by
  unfold normalizeOne
  rw [htext, hca]
  simp [hfmt]

/-- C7 witness: a post with unparseable `createdAt` and absent counts
normalizes to empty date and time with text kept and counts 0. -/
theorem claim_C7_witness :
    normalizeOne mockFmt ⟨"u", some (.dict (some postTypeTag) (some "bad") (some "hi")), none, none⟩
      = .ok ⟨"hi", "", "", 0, 0⟩ :=
  claim_C7_degraded_record mockFmt
    ⟨"u", some (.dict (some postTypeTag) (some "bad") (some "hi")), none, none⟩
    "hi" "bad" (by decide) (by decide) (by decide)

/-- C8: a transport or JSON-decode error while fetching a page terminates
the fetch with the posts accumulated so far — whatever they are — rather
than raising; and an empty feed on the very first page yields the empty
result with no error. -/
theorem claim_C8_partial_results_on_error (cfg : FetchCfg)
    (acc : List BskyPost) (rest : List PageResponse)
    (parse : String → Option Int) (limit : Nat) (er : Bool)
    (fd td : Option Int) (cur : Option String) (rest2 : List PageResponse) :
    fetchPages cfg (.transportError :: rest) acc = acc ∧
    get_my_posts parse limit er fd td (.ok ⟨[], cur⟩ :: rest2) = [] := by
  exact ⟨rfl, rfl⟩

/-- C9: when the session endpoint answers 2xx but the body has no
`accessJwt` field, the login returns `none` — the same value it returns
on an authentication/transport failure, so the two cases are
indistinguishable to the caller. -/
theorem claim_C9_login_indistinguishable_none (r : SessionResponse)
    (hok : r.statusOk = true) (hjwt : r.accessJwt? = none) :
    bluesky_login (.ok r) = none ∧ bluesky_login .raised = none := by
  refine ⟨?_, rfl⟩
  simp [bluesky_login, hok, hjwt]

/-- C9 witness: the concrete 2xx response with no `accessJwt`. -/
theorem claim_C9_witness :
    bluesky_login (.ok ⟨true, none⟩) = none ∧
    bluesky_login .raised = none :=
  claim_C9_login_indistinguishable_none ⟨true, none⟩ rfl rfl

/-- C10: a feed item that is structurally malformed at the top level —
no `post` field, or a post failing the record guard of lines 122–124
(record missing, record not a dictionary, or `$type` differing from the
post-type tag) — is a no-op for the page scan: nothing is added, nothing
raises, and scanning continues with the remaining items of the page. -/
theorem claim_C10_malformed_item_skipped (cfg : FetchCfg) (item : FeedItem)
    (rest : List FeedItem) (acc : List BskyPost) (flag : Bool)
    (h : item.post? = none ∨ ∀ p, item.post? = some p → isRealPost p = false) :
    scanItems cfg (item :: rest) acc flag = scanItems cfg rest acc flag :=
  scanItems_cons_skip cfg rest acc flag (itemStep_skip_of_malformed cfg h)

/-- C10 witness: an item whose record's `$type` is not the post tag is
skipped, and the well-formed post after it on the same page is still
scanned. -/
theorem claim_C10_witness :
    scanItems ⟨mockParse, 10, true, none, none⟩
        (⟨some ⟨"u", some (.dict (some "app.bsky.feed.repost") (some "t5") none),
          none, none⟩, false⟩ :: [mkItem "t3"]) [] false
      = scanItems ⟨mockParse, 10, true, none, none⟩ [mkItem "t3"] [] false :=
  claim_C10_malformed_item_skipped ⟨mockParse, 10, true, none, none⟩
    _ [mkItem "t3"] [] false (Or.inr (by decide))
